import Mathlib

set_option autoImplicit false

/-! Verification development for the real-time transcript aggregation /
commit / translation backend (`backend/app`).

The live event pipeline is `from_deepgram_to_server` inside
`ws_stt_deepgram` (main.py); its helpers `commit_now`, `arm_timer`,
`ends_like_sentence` and `norm_ws` are embedded below, together with
`Committer.maybe_commit` (commit.py), `ConnectionManager.broadcast`
(socket_manager.py), `apply_ko_spacing` (utils/spacing.py) and the
fail-open structure of `translate_text` (utils/translate.py).

Strings are Lean `String`s; the Python string methods used by the code
(`strip`, `rstrip`, `split`, `in`, `replace`, `find`, `startswith`,
`endswith`) are embedded on `List Char`.  Python's notion of whitespace
is modelled by the six ASCII whitespace characters, which are the only
whitespace characters occurring in the transcript data paths. -/

def pyWsChar (c : Char) : Bool :=
  c = ' ' || c = '\t' || c = '\n' || c = '\r' || c = '\x0B' || c = '\x0C'

/-- Python `str.strip()` on char lists. -/
def pyStripL (l : List Char) : List Char :=
  ((l.dropWhile pyWsChar).reverse.dropWhile pyWsChar).reverse

/-- Python `str.strip()`. -/
def pyStrip (s : String) : String := String.mk (pyStripL s.data)

/-- Python `str.rstrip()`. -/
def pyRstrip (s : String) : String :=
  String.mk ((s.data.reverse.dropWhile pyWsChar).reverse)

def splitWsAux : List Char → List Char → List (List Char)
  | [], cur => if cur.isEmpty then [] else [cur.reverse]
  | c :: rest, cur =>
    if pyWsChar c then
      if cur.isEmpty then splitWsAux rest [] else cur.reverse :: splitWsAux rest []
    else splitWsAux rest (c :: cur)

/-- Python `str.split()` (split on whitespace runs, no empty pieces). -/
def splitWsL (l : List Char) : List (List Char) := splitWsAux l []

def normWsL (l : List Char) : List Char := List.intercalate [' '] (splitWsL l)

/-- `norm_ws` from main.py: `" ".join((s or "").split())`. -/
def norm_ws (s : String) : String := String.mk (normWsL s.data)

/-- `SENTENCE_PUNCT = tuple(".?!。？！…")` from main.py. -/
def SENTENCE_PUNCT : List Char := ['.', '?', '!', '。', '？', '！', '…']

/-- `ends_like_sentence` from main.py (lines 655-657):
`t = (t or "").rstrip(); return bool(t) and t[-1] in SENTENCE_PUNCT`. -/
def ends_like_sentence (t : String) : Bool :=
  match (pyRstrip t).data.getLast? with
  | some c => SENTENCE_PUNCT.contains c
  | none => false

/-- One accepted commit as produced by `commit_now` (sequence number,
Korean source text, English text actually forwarded). -/
structure Commit where
  seq : Nat
  srcText : String
  en : String
  deriving DecidableEq, Repr

/-- The per-connection state of `from_deepgram_to_server` (main.py):
`seq`, the `commit_now._last_kr` attribute, `pending_kr`, the
outstanding `pending_task` debounce timers (as the list of their arm-time
snapshots; the source keeps at most one alive via cancel-then-schedule),
and the log of accepted commits. -/
structure ConnState where
  seq : Nat
  lastKr : String
  pending : Option String
  timers : List String
  commits : List Commit
  deriving DecidableEq, Repr

/-- Messages sent towards the producer / broadcast sinks that matter for
the claims: `stt.partial` live previews and accepted commits. -/
inductive OutMsg where
  | previewMsg : String → OutMsg
  | commitMsg : Commit → OutMsg
  deriving DecidableEq, Repr

/-- Python truthiness of `pending_kr : str | None`. -/
def truthy : Option String → Bool
  | none => false
  | some s => decide (s ≠ "")

/-- Embeds `commit_now` (main.py lines 662-718).  The translation call is
an oracle `tx`; `commit_now` wraps it in try/except and falls back to the
raw source text when it raises (modelled by `tx` returning `none`).
Order of the source: empty guard, normalized de-dup against `_last_kr`,
then `_last_kr := kr_text`, `seq += 1`, translate (fail-open), send,
broadcast, clear `pending_kr`, cancel and clear `pending_task`. -/
def commit_now (tx : String → Option String) (krText : String) (s : ConnState) :
    ConnState × Option Commit :=
  if pyStrip krText = "" then (s, none)
  else if norm_ws krText = norm_ws s.lastKr then (s, none)
  else
    let en := (tx krText).getD krText
    let c : Commit := { seq := s.seq + 1, srcText := krText, en := en }
    ({ seq := s.seq + 1, lastKr := krText, pending := none, timers := [],
       commits := s.commits ++ [c] }, some c)

/-- Embeds `arm_timer` (main.py lines 720-733): cancel any prior
`pending_task`, then schedule a new `_wait_and_commit(pending_kr or "")`. -/
def arm_timer (s : ConnState) : ConnState :=
  let cancelled : ConnState := { s with timers := [] }
  { cancelled with timers := cancelled.timers ++ [s.pending.getD ("")] }

/-- Embeds the body of `_wait_and_commit(snap)` after its sleep (main.py
lines 725-731): the fired task is no longer outstanding, and it commits
only when `pending_kr` is truthy and normalizes equal to the snapshot. -/
def fire_timer (tx : String → Option String) (snap : String) (s : ConnState) :
    ConnState × Option Commit :=
  let s0 : ConnState := { s with timers := [] }
  match s.pending with
  | some p =>
    if p = "" then (s0, none)
    else if norm_ws p = norm_ws snap then commit_now tx p s0
    else (s0, none)
  | none => (s0, none)

/-- Embeds the teardown flush (main.py lines 781-787): `if pending_kr:
try: await commit_now(pending_kr) except: pass`. -/
def flush_commit (tx : String → Option String) (s : ConnState) :
    ConnState × Option Commit :=
  match s.pending with
  | some p => if p = "" then (s, none) else commit_now tx p s
  | none => (s, none)

/-- Embeds the body of the `async for raw in dg` loop for one `Results`
event with a best alternative (main.py lines 736-779): `transcript` is
stripped; a non-final event with text only emits an `stt.partial`
preview; a final event replaces `pending_kr` (when non-empty) and then
either commits (speech_final, or sentence-final punctuation) or arms the
debounce timer. -/
def processResult (tx : String → Option String) (transcript : String)
    (isFinal speechFinal : Bool) (s : ConnState) : ConnState × List OutMsg :=
  let t := pyStrip transcript
  if t ≠ "" ∧ isFinal = false then (s, [OutMsg.previewMsg t])
  else if isFinal = false then (s, [])
  else
    let s1 := if t = "" then s else { s with pending := some t }
    if speechFinal = true ∧ truthy s1.pending = true then
      let r := commit_now tx (s1.pending.getD ("")) s1
      (r.1, (r.2.map OutMsg.commitMsg).toList)
    else if truthy s1.pending = true ∧ ends_like_sentence (s1.pending.getD ("")) = true then
      let r := commit_now tx (s1.pending.getD ("")) s1
      (r.1, (r.2.map OutMsg.commitMsg).toList)
    else if truthy s1.pending = true then (arm_timer s1, [])
    else (s1, [])

/-- The actions that can touch a connection's commit-relevant state:
a Deepgram `Results` event, a debounce-timer fire with its arm-time
snapshot, and the teardown flush. -/
inductive Act where
  | result : String → Bool → Bool → Act
  | fire : String → Act
  | flush : Act
  deriving DecidableEq, Repr

def stepA (tx : String → Option String) (s : ConnState) : Act → ConnState
  | Act.result tr f sf => (processResult tx tr f sf s).1
  | Act.fire snap => (fire_timer tx snap s).1
  | Act.flush => (flush_commit tx s).1

def runA (tx : String → Option String) (s : ConnState) (acts : List Act) : ConnState :=
  acts.foldl (stepA tx) s

/-- Fresh connection state: `seq = 0`, `_last_kr = ""` (the `getattr`
default), no pending text, no timer, no commits. -/
def initState : ConnState :=
  { seq := 0, lastKr := "", pending := none, timers := [], commits := [] }

/-- `Committer` from commit.py: `seq = 0`, `_last = ""`. -/
structure Committer where
  seq : Nat
  lastC : String
  deriving DecidableEq, Repr

/-- Embeds `Committer.maybe_commit` (commit.py lines 9-19); the wall-clock
`ts` field of the emitted dict is dropped. -/
def maybe_commit (c : Committer) (text : String) (isFinal speechFinal : Bool) :
    Committer × Option (Nat × String) :=
  let t := pyStrip text
  if t = "" then (c, none)
  else if isFinal || speechFinal then
    if t = c.lastC then (c, none)
    else ({ seq := c.seq + 1, lastC := t }, some (c.seq + 1, t))
  else (c, none)

/-- Embeds the first loop of `ConnectionManager.broadcast`
(socket_manager.py lines 19-27): the listeners whose `send_json` raised,
collected in order. `fails w = true` models `await ws.send_json(message)`
raising for listener `w`. -/
def broadcastDead {L : Type} (active : List L) (fails : L → Bool) : List L :=
  active.foldl (fun d w => if fails w then d ++ [w] else d) []

/-- The listeners that actually received the message in the same loop. -/
def broadcastSent {L : Type} (active : List L) (fails : L → Bool) : List L :=
  active.foldl (fun snt w => if fails w then snt else snt ++ [w]) []

/-- `ConnectionManager.disconnect`: `set.remove` with `KeyError` ignored. -/
def removeListener {L : Type} [DecidableEq L] (act : List L) (w : L) : List L :=
  act.erase w

/-- The active set after `broadcast`: every dead listener disconnected. -/
def broadcastAfter {L : Type} [DecidableEq L] (active : List L) (fails : L → Bool) :
    List L :=
  (broadcastDead active fails).foldl removeListener active

/-! ### Substring utilities (Python `in`, `find`, `startswith`, `replace`) -/

def isPrefOf : List Char → List Char → Bool
  | [], _ => true
  | _ :: _, [] => false
  | p :: ps, c :: cs => p = c && isPrefOf ps cs

def isSufOf (p l : List Char) : Bool := isPrefOf p.reverse l.reverse

def occursAt (pat l : List Char) (i : Nat) : Bool := isPrefOf pat (l.drop i)

/-- Python `pat in l` (substring containment). -/
def containsSub (l pat : List Char) : Bool :=
  (List.range (l.length + 1)).any (occursAt pat l)

/-- Python `l.find(pat)`, as `none` instead of `-1`: the first index at
which `pat` occurs. -/
def firstOcc (l pat : List Char) : Option Nat :=
  (List.range (l.length + 1)).find? (occursAt pat l)

def replaceFuel : Nat → List Char → List Char → List Char → List Char
  | 0, l, _, _ => l
  | _ + 1, [], _, _ => []
  | n + 1, c :: rest, pat, rep =>
    if !pat.isEmpty && isPrefOf pat (c :: rest) then
      rep ++ replaceFuel n ((c :: rest).drop pat.length) pat rep
    else c :: replaceFuel n rest pat rep

/-- Python `s.replace(pat, rep)`, which is also `re.sub` for a literal
pattern: non-overlapping occurrences, left to right.  (Every pattern the
code passes is non-empty; on an empty pattern this is the identity.) -/
def replaceAllL (l pat rep : List Char) : List Char := replaceFuel l.length l pat rep

def countWhile (p : Char → Bool) : List Char → Nat
  | [] => 0
  | c :: rest => if p c then countWhile p rest + 1 else 0

/-! ### utils/spacing.py -/

/-- `_HANGUL_RE = [가-힣]`, as a character test. -/
def isHangul (c : Char) : Bool := 0xAC00 ≤ c.toNat && c.toNat ≤ 0xD7A3

/-- `_is_mostly_hangul` (spacing.py lines 76-81) with its default
`threshold = 0.6`: non-empty and `hangul / total >= 0.6`, written exactly
as `5 * hangul ≥ 3 * total` (the same inequality over the rationals; the
Python float comparison agrees with it for every string short enough to
exist in memory). -/
def is_mostly_hangul (s : String) : Bool :=
  decide (s ≠ "" ∧ 3 * s.data.length ≤ 5 * (s.data.filter isHangul).length)

/-- The word list `_word_set()` falls back to (spacing.py lines 26-72):
the repository ships no `data/ko_spacing_words.txt`, so the in-source
fallback set is used, extended with the single-character particles and
with the space-removed variants of the spaced entries.  Python set
semantics: only membership matters, duplicates are immaterial. -/
def koSpacingWords : List String :=
  [ "하나님", "예수님", "성령님", "주님", "말씀", "기도", "찬양", "예배", "봉헌",
    "사도신경", "축도", "찬송", "찬송가", "성경", "복음", "교회", "성도", "형제",
    "자매", "성가대", "헌금", "말씀을", "기도를", "찬양을", "예배를",
    "예배하며", "예배합시다", "예배드리며", "예배드립시다",
    "함께", "다 같이", "같이", "모두", "우리", "우리가", "우리의", "여러분",
    "형제자매", "가족", "주께", "주께서", "주님께", "주님께서",
    "일어나", "일어나서", "일어나셔서", "자리에서", "앉아", "앉아서",
    "축복", "축복합니다", "선포", "선포합니다", "기도합시다", "기도하겠습니다",
    "이 시간", "지금", "오늘", "오늘도", "다시", "다 함께", "주 앞에", "주님 앞에",
    "임재", "은혜", "사랑", "영광", "감사", "회개", "구원",
    "그리고", "그러나", "또", "또한", "그래서", "그러므로", "왜냐하면", "하지만",
    "때", "때에", "때마다", "것", "것을", "것도", "것은", "것이",
    "모든", "다", "다음에", "서로",
    "에게", "에게서", "께", "께서", "에서", "으로", "로", "까지", "부터",
    "보다", "보다도", "조차", "마저", "도", "만", "만큼", "이나", "나",
    "과", "와", "및", "의", "에", "처럼", "동안", "위해", "위하여", "위해서",
    "안에서", "밖에서",
    "받으시게", "받으시는", "받으시는하나님", "들으시고", "들으시는", "나갈", "나갈 때",
    "예배하며 나갈", "예배하며 나갈 때", "고백하며", "선포하며",
    "찬양하며", "기억하며", "돌아보며", "감사하며",
    "을", "를", "이", "가", "은", "는",
    "다같이", "다함께", "이시간", "주앞에", "주님앞에", "나갈때",
    "예배하며나갈", "예배하며나갈때" ]

/-- The single-character separators of `_TOKEN_SPLIT_RE = ([,.;!?·…]|\s+)`. -/
def puncSepChar (c : Char) : Bool :=
  c = ',' || c = '.' || c = ';' || c = '!' || c = '?' || c = '·' || c = '…'

/-- `_TOKEN_SPLIT_RE.split(text)` including the captured separators and
minus the empty pieces: the maximal runs of plain text, the single
punctuation separators and the whitespace runs, in order. -/
def tokenizeFuel : Nat → List Char → List (List Char)
  | 0, _ => []
  | _ + 1, [] => []
  | n + 1, c :: rest =>
    if puncSepChar c then [c] :: tokenizeFuel n rest
    else if pyWsChar c then
      let k := countWhile pyWsChar rest
      (c :: rest.take k) :: tokenizeFuel n (rest.drop k)
    else
      let k := countWhile (fun d => !puncSepChar d && !pyWsChar d) rest
      (c :: rest.take k) :: tokenizeFuel n (rest.drop k)

/-- The inner loop of `_segment_run` (`max_len = 8`): the first chunk at
the head of `run` that is in the word set, trying lengths
`min 8 run.length` down to `1`. -/
def longestWordAt (run : List Char) : Option (List Char) :=
  (List.range (min 8 run.length)).reverse.findSome? fun j =>
    let chunk := run.take (j + 1)
    if koSpacingWords.contains (String.mk chunk) then some chunk else none

def segRunFuel : Nat → List Char → List (List Char)
  | 0, _ => []
  | _ + 1, [] => []
  | n + 1, c :: rest =>
    match longestWordAt (c :: rest) with
    | some w => w :: segRunFuel n ((c :: rest).drop w.length)
    | none => [c] :: segRunFuel n rest

/-- `_segment_run` (spacing.py lines 84-103). -/
def segment_run (run : List Char) : List Char :=
  List.intercalate [' '] (segRunFuel run.length run)

/-- `apply_ko_spacing` (spacing.py lines 106-131): unchanged when the
text is empty, contains a space, or is not mostly Hangul; otherwise the
Hangul runs are re-segmented against the word list. -/
def apply_ko_spacing (text : String) : String :=
  if text = "" then text
  else if text.data.contains ' ' then text
  else if is_mostly_hangul text = false then text
  else
    let parts := tokenizeFuel text.data.length text.data
    let spacedParts := parts.filterMap fun part =>
      if part.isEmpty || part.all pyWsChar then none
      else if part.all isHangul then some (segment_run part)
      else some part
    String.mk (List.intercalate [' '] spacedParts)

/-! ### utils/translate.py — marker lists and helpers -/

def FIRST_PERSON_KO_MARKERS : List String :=
  [ "나는", "난", "내가", "내게", "나를", "나도", "나만", "나와", "나에게", "나한테", "나의",
    "저는", "전", "제가", "제게", "저를", "저도", "저만", "저와", "저에게", "저한테", "저의",
    "우리", "우리가", "우리는", "우릴", "우리의", "우리도", "우리만", "우리와", "우리에게", "우리한테" ]

def WE_KO_MARKERS : List String :=
  [ "우리", "우리가", "우리는", "우릴", "우리의", "우리도", "우리만", "우리와", "우리에게", "우리한테" ]

def HE_KO_MARKERS : List String :=
  [ "그는", "그가", "그를", "그의", "그에게", "그한테",
    "그분은", "그분이", "그분을", "그분의" ]

def SHE_KO_MARKERS : List String :=
  [ "그녀는", "그녀가", "그녀를", "그녀의", "그녀에게", "그녀한테" ]

def THEY_KO_MARKERS : List String :=
  [ "그들은", "그들이", "그들을", "그들의", "그들에게", "그들한테" ]

def IMPLICIT_FIRST_PERSON_KO_TERMS : List String :=
  [ "아내", "남편", "부인", "배우자", "집사람", "마누라", "와이프" ]

def IMPLICIT_FIRST_PERSON_BLOCKERS : List String :=
  [ "그의", "그녀의", "그들의", "그분의", "누구의", "어떤", "한", "이런", "저런", "그", "이", "저",
    "남의", "타인의", "이웃의" ]

/-- `re.sub(r"\s+", "", text)`: drop all whitespace. -/
def removeWs (l : List Char) : List Char := l.filter (fun c => !pyWsChar c)

/-- One marker occurrence in `_contains_marker_list` (translate.py
446-453): the marker occurs in the compacted text at a position where it
is not glued to adjacent Hangul (the `(?<![가-힣])…(?![가-힣])` guards). -/
def marker_occurs (compact marker : List Char) : Bool :=
  (List.range (compact.length + 1)).any fun i =>
    occursAt marker compact i &&
    (decide (i = 0) || !isHangul (compact.getD (i - 1) ' ')) &&
    (decide (compact.length ≤ i + marker.length) ||
      !isHangul (compact.getD (i + marker.length) ' '))

def contains_marker_list (text : String) (markers : List String) : Bool :=
  markers.any fun m => marker_occurs (removeWs text.data) m.data

/-- `_contains_first_person_markers` (translate.py 456-457). -/
def contains_first_person_markers (text : String) : Bool :=
  contains_marker_list text FIRST_PERSON_KO_MARKERS

/-- `_contains_we_markers` (translate.py 476-477). -/
def contains_we_markers (text : String) : Bool :=
  contains_marker_list text WE_KO_MARKERS

/-- `_detect_third_person_pronoun` (translate.py 550-558), reduced to the
truthiness its caller `_contains_implicit_first_person_kinship` consumes:
whether any she/they/he marker occurs as a plain substring. -/
def detects_third_person (compact : List Char) : Bool :=
  (SHE_KO_MARKERS ++ THEY_KO_MARKERS ++ HE_KO_MARKERS).any fun m =>
    containsSub compact m.data

/-- `_contains_implicit_first_person_kinship` (translate.py 459-473). -/
def contains_implicit_first_person_kinship (text : String) : Bool :=
  let compact := removeWs text.data
  if compact.isEmpty then false
  else if detects_third_person compact then false
  else IMPLICIT_FIRST_PERSON_KO_TERMS.any fun term =>
    match firstOcc compact term.data with
    | none => false
    | some idx =>
      let pre := (compact.take idx).drop (idx - 6)
      !(IMPLICIT_FIRST_PERSON_BLOCKERS.any fun b => isSufOf b.data pre)

/-! ### utils/translate.py — `_preprocess_source_text` -/

/-- The pattern `이\\s*시간다` of `_preprocess_source_text`: inside the
Python raw string the doubled backslash escapes the backslash, so the
regex matches `이`, a literal backslash, a (greedy, here unambiguous) run
of the letter `s`, then `시간다`.  Returns the match length at the head. -/
def isigandaMatch (l : List Char) : Option Nat :=
  match l with
  | '이' :: '\\' :: rest =>
    let k := countWhile (fun c => c = 's') rest
    if isPrefOf ['시', '간', '다'] (rest.drop k) then some (2 + k + 3) else none
  | _ => none

/-- `re.sub` for a matcher `m` that reports the length of a match at the
head of its argument: non-overlapping, left to right; zero-length matches
do not occur for the patterns embedded here. -/
def subFuel (m : List Char → Option Nat) (rep : List Char) :
    Nat → List Char → List Char
  | 0, l => l
  | _ + 1, [] => []
  | n + 1, c :: rest =>
    match m (c :: rest) with
    | some (k + 1) => rep ++ subFuel m rep n ((c :: rest).drop (k + 1))
    | _ => c :: subFuel m rep n rest

def subMatcher (m : List Char → Option Nat) (rep l : List Char) : List Char :=
  subFuel m rep l.length l

/-- `_preprocess_source_text` (translate.py 229-253) for a Korean source
(`commit_now` always passes `source = "ko"`). -/
def preprocess_source_text (text : String) : String :=
  if text = "" then text
  else
    let c1 := replaceAllL text.data ("사도신명").data ("사도신경").data
    let c2 := replaceAllL c1 ("사도신병").data ("사도신경").data
    let c3 := subMatcher isigandaMatch ("이 시간 다").data c2
    let c4 := replaceAllL c3 ("예배하며나갈때").data ("예배하며 나갈 때").data
    let c5 := replaceAllL c4 ("함께예배하며나갈때").data ("함께 예배하며 나갈 때").data
    let c6 := replaceAllL c5 ("하나님이계시기에").data ("하나님이 계시기에").data
    let c7 := if isPrefOf ("이시간").data c6 then ("이 시간").data ++ c6.drop 3 else c6
    String.mk c7

/-! ### utils/translate.py — hard glossary -/

/-- `THEOLOGICAL_TERMS`, which is also the default `HARD_GLOSSARY_TERMS`. -/
def HARD_GLOSSARY_TERMS : List (String × String) :=
  [ ("여호와", "the LORD"),
    ("하나님 나라", "the kingdom of God"),
    ("언약", "covenant"),
    ("은혜", "grace"),
    ("의", "righteousness"),
    ("성령", "the Holy Spirit"),
    ("회개", "repentance"),
    ("구원", "salvation"),
    ("십자가", "the cross"),
    ("복음", "the gospel") ]

/-- `_mask_hard_glossary` (translate.py 579-597) for a Korean source:
each glossary term present in the text is replaced by its stable token
`[[Tidx]]` (`enumerate` start 1), and the token-to-English mapping is
collected in insertion order. -/
def mask_hard_glossary (text : String) : String × List (String × String) :=
  if text = "" then (text, [])
  else
    let r := HARD_GLOSSARY_TERMS.foldl
      (fun (acc : List Char × List (String × String) × Nat) te =>
        let token := ("[[T" ++ toString acc.2.2 ++ "]]").data
        if containsSub acc.1 te.1.data then
          (replaceAllL acc.1 te.1.data token,
           acc.2.1 ++ [(String.mk token, te.2)], acc.2.2 + 1)
        else (acc.1, acc.2.1, acc.2.2 + 1))
      (text.data, [], 1)
    (String.mk r.1, r.2.1)

/-- `_unmask_hard_glossary` (translate.py 599-603): replace each token by
its English term, in the mapping's insertion order. -/
def unmask_hard_glossary (text : String) (mapping : List (String × String)) : String :=
  String.mk (mapping.foldl (fun out tr => replaceAllL out tr.1.data tr.2.data) text.data)

/-- `out.strip('"“”')`. -/
def quoteChar (c : Char) : Bool := c = '"' || c = '“' || c = '”'

def stripQuotes (s : String) : String :=
  String.mk (((s.data.dropWhile quoteChar).reverse.dropWhile quoteChar).reverse)

/-! ### utils/translate.py — `_enforce_we_guardrails` replacement engine

A small matcher for exactly the regex fragments used by the guardrail
patterns: case-insensitive literals, `\s+`, `(a|b|c)`, `[s]?`, `\w+`,
with `\b` at both ends (every pattern starts and ends with a word
character, so the boundaries reduce to "the adjacent character is not a
word character").  Backtracking preference follows Python: greedy
quantifiers longest first, alternatives in order. -/

/-- Python `\w` for the character sets occurring here: ASCII
alphanumerics, underscore, and Hangul syllables. -/
def wordChar (c : Char) : Bool := c.isAlphanum || c = '_' || isHangul c

inductive RAtom where
  | lit : List Char → RAtom
  | wsp : RAtom
  | alt : List (List Char) → RAtom
  | opt : Char → RAtom
  | wrd : RAtom

def lowerEq (a b : Char) : Bool := a.toLower = b.toLower

def matchLit : List Char → List Char → Option (List Char)
  | [], l => some l
  | _ :: _, [] => none
  | p :: ps, c :: cs => if lowerEq p c then matchLit ps cs else none

/-- Match a sequence of atoms at the head of the input, returning the
rest of the input after the first match in Python's preference order.
The fuel is the number of atoms (one is consumed per step). -/
def matchAtomsF : Nat → List RAtom → List Char → Option (List Char)
  | _, [], l => some l
  | 0, _ :: _, _ => none
  | n + 1, RAtom.lit s :: as, l => (matchLit s l).bind (matchAtomsF n as)
  | n + 1, RAtom.wsp :: as, l =>
    let k := countWhile pyWsChar l
    (List.range k).findSome? fun j => matchAtomsF n as (l.drop (k - j))
  | n + 1, RAtom.opt c :: as, l =>
    match l with
    | x :: rest =>
      if lowerEq c x then
        match matchAtomsF n as rest with
        | some r => some r
        | none => matchAtomsF n as l
      else matchAtomsF n as l
    | [] => matchAtomsF n as l
  | n + 1, RAtom.alt opts :: as, l =>
    opts.findSome? fun o => (matchLit o l).bind (matchAtomsF n as)
  | n + 1, RAtom.wrd :: as, l =>
    let k := countWhile wordChar l
    (List.range k).findSome? fun j => matchAtomsF n as (l.drop (k - j))

/-- One guardrail substitution: pattern atoms, whether the replacement
goes through `_format_replacement`, and the replacement text. -/
structure RPat where
  atoms : List RAtom
  useFmt : Bool
  repl : List Char

/-- The sentence-opening characters of `_format_replacement`. -/
def sentStartPunct : List Char := ['.', '!', '?', '“', '”', '"', '\'', '‘', '’', '(']

/-- `_format_replacement` (translate.py 538-548): keep the replacement's
capitalization at a sentence start, otherwise lowercase its first
character.  `orig` is the string the substitution runs on, `idx` the
match start. -/
def fmtRepl (orig : List Char) (idx : Nat) (repl : List Char) : List Char :=
  let pre := (orig.take idx).reverse.dropWhile pyWsChar
  let sentStart := match pre with
    | [] => true
    | c :: _ => sentStartPunct.contains c
  if sentStart then repl
  else match repl with
    | c :: rest => c.toLower :: rest
    | [] => []

def endBoundaryOk : List Char → Bool
  | [] => true
  | c :: _ => !wordChar c

/-- Left-to-right non-overlapping substitution of one pattern over the
input, Python `re.sub` style: matching inspects the original string,
replacements are emitted into the output and never re-matched. -/
def scanPatFuel (p : RPat) (orig : List Char) :
    Nat → Nat → List Char → Option Char → List Char
  | 0, _, l, _ => l
  | n + 1, idx, l, prev =>
    match l with
    | [] => []
    | c :: rest =>
      let bOk := match prev with
        | none => true
        | some pc => !wordChar pc
      let matched := if bOk then matchAtomsF p.atoms.length p.atoms (c :: rest) else none
      match matched with
      | some r =>
        if endBoundaryOk r && decide (r.length < (c :: rest).length) then
          let consumed := (c :: rest).length - r.length
          let repTxt := if p.useFmt then fmtRepl orig idx p.repl else p.repl
          repTxt ++ scanPatFuel p orig n (idx + consumed) r (((c :: rest).take consumed).getLast?)
        else c :: scanPatFuel p orig n (idx + 1) rest (some c)
      | none => c :: scanPatFuel p orig n (idx + 1) rest (some c)

def subRPat (p : RPat) (l : List Char) : List Char :=
  scanPatFuel p l l.length 0 l none

def litA (s : String) : RAtom := RAtom.lit s.data

def altA (ss : List String) : RAtom := RAtom.alt (ss.map String.data)

def mkPat (atoms : List RAtom) (fmt : Bool) (repl : String) : RPat :=
  ⟨atoms, fmt, repl.data⟩

/-- The substitution cascade of `_enforce_we_guardrails` (translate.py
772-799), in source order: the `replacements` list (all applied through
`_format_replacement`, `re.IGNORECASE`), then the two invitation-tone
substitutions with plain replacements. -/
def weGuardPats : List RPat :=
  [ mkPat [litA ("He"), RAtom.wsp, litA ("encourages")] true ("Let us"),
    mkPat [litA ("She"), RAtom.wsp, litA ("encourages")] true ("Let us"),
    mkPat [litA ("They"), RAtom.wsp, litA ("encourage")] true ("Let us"),
    mkPat [litA ("he")] true ("we"),
    mkPat [litA ("she")] true ("we"),
    mkPat [litA ("they")] true ("we"),
    mkPat [litA ("him")] true ("us"),
    mkPat [litA ("her")] true ("us"),
    mkPat [litA ("them")] true ("us"),
    mkPat [litA ("his")] true ("our"),
    mkPat [litA ("her")] true ("our"),
    mkPat [litA ("their")] true ("our"),
    mkPat [litA ("he is")] true ("we are"),
    mkPat [litA ("she is")] true ("we are"),
    mkPat [litA ("they are")] true ("we are"),
    mkPat [litA ("he was")] true ("we were"),
    mkPat [litA ("she was")] true ("we were"),
    mkPat [litA ("they were")] true ("we were"),
    mkPat [altA [("he"), ("she"), ("they")], RAtom.wsp, litA ("should"),
           RAtom.wsp, litA ("go")] false ("let us go"),
    mkPat [altA [("he"), ("she"), ("they")], RAtom.wsp, litA ("encourage"),
           RAtom.opt 's', RAtom.wsp, RAtom.wrd] false ("let us") ]

/-- `_enforce_we_guardrails` (translate.py 758-800), specialized to the
`ctx=None` call made from `commit_now`'s translation (there
`_normalize_pronoun(None)` is `None`, so the cascade runs only when the
Korean source carries a literal we-marker). -/
def enforce_we_guardrails (en sourceText : String) : String :=
  if contains_first_person_markers sourceText ||
     contains_implicit_first_person_kinship sourceText then en
  else if !contains_we_markers sourceText then en
  else String.mk (weGuardPats.foldl (fun s p => subRPat p s) en.data)

/-! ### utils/translate.py — `translate_text` -/

/-- The outcome of the external OpenAI chat call inside `translate_text`:
either the call raised, or it returned a response whose
`message.content` is the given optional string. -/
inductive ApiOutcome where
  | raised : ApiOutcome
  | returned : Option String → ApiOutcome

/-- `text` after `strip` and `_preprocess_source_text` — the value the
`except Exception` branch of `translate_text` returns. -/
def tx_preprocessed (text : String) : String :=
  preprocess_source_text (pyStrip text)

def tx_mask (text : String) : String × List (String × String) :=
  mask_hard_glossary (tx_preprocessed text)

/-- The masked text after `apply_ko_spacing`, whose emptiness gates the
early `return ""`. -/
def tx_masked_spaced (text : String) : String :=
  apply_ko_spacing (tx_mask text).1

/-- Embeds `translate_text` (translate.py 803-902) for the exact call the
commit path makes: `translate_text(src_text, "ko", "en")` with `ctx=None`
and `update_ctx=True`.  The external OpenAI chat call is the oracle
`api`: `ApiOutcome.raised` is the `except Exception` branch (which
returns the preprocessed source text), `ApiOutcome.returned content` a
response whose `message.content` is `content` (possibly `None`, which
`or ""` turns into the empty string).  With `ctx=None` the context
blocks and `_enforce_subject_guardrails` are skipped, and
`_log_translation_example` is I/O only. -/
def translate_text (text : String) (api : ApiOutcome) : String :=
  let text2 := tx_preprocessed text
  let masked := tx_mask text
  if tx_masked_spaced text = "" then ("")
  else
    match api with
    | ApiOutcome.raised => text2
    | ApiOutcome.returned content =>
      let out1 := stripQuotes (pyStrip (content.getD ("")))
      let out2 := unmask_hard_glossary out1 masked.2
      enforce_we_guardrails out2 text2

/-! ### General helper lemmas -/

theorem range'_snoc (s n : Nat) : List.range' s (n + 1) = List.range' s n ++ [s + n] := by
  induction n generalizing s with
  | zero => simp
  | succ n ih =>
    rw [List.range'_succ s (n + 1) 1, ih (s + 1), List.range'_succ s n 1]
    have hsn : s + 1 + n = s + (n + 1) := by omega
    rw [hsn]
    simp

theorem commit_now_seq_inv (tx : String → Option String) (t : String) (s : ConnState)
    (h1 : s.commits.map Commit.seq = List.range' 1 s.commits.length)
    (h2 : s.seq = s.commits.length) :
    (commit_now tx t s).1.commits.map Commit.seq =
      List.range' 1 (commit_now tx t s).1.commits.length ∧
    (commit_now tx t s).1.seq = (commit_now tx t s).1.commits.length := by
  unfold commit_now
  split
  · exact ⟨h1, h2⟩
  split
  · exact ⟨h1, h2⟩
  constructor
  · simp only [List.map_append, h1, h2, List.length_append, List.map_cons, List.map_nil,
      List.length_cons, List.length_nil]
    rw [range'_snoc]
    simp [Nat.add_comm]
  · simp [h2]

theorem stepA_seq_inv (tx : String → Option String) (a : Act) (s : ConnState)
    (h1 : s.commits.map Commit.seq = List.range' 1 s.commits.length)
    (h2 : s.seq = s.commits.length) :
    (stepA tx s a).commits.map Commit.seq = List.range' 1 (stepA tx s a).commits.length ∧
    (stepA tx s a).seq = (stepA tx s a).commits.length := by
  cases a with
  | result tr f sf =>
    simp only [stepA, processResult]
    repeat' split
    all_goals first
      | exact ⟨h1, h2⟩
      | (apply commit_now_seq_inv <;> simpa using ‹_›)
  | fire snap =>
    simp only [stepA, fire_timer]
    cases s.pending with
    | none => exact ⟨h1, h2⟩
    | some p =>
      simp only []
      repeat' split
      all_goals first
        | exact ⟨h1, h2⟩
        | (apply commit_now_seq_inv <;> simp [h1, h2])
  | flush =>
    simp only [stepA, flush_commit]
    cases s.pending with
    | none => exact ⟨h1, h2⟩
    | some p =>
      simp only []
      split
      · exact ⟨h1, h2⟩
      · exact commit_now_seq_inv tx p s h1 h2

theorem runA_seq_inv (tx : String → Option String) (acts : List Act) : ∀ s : ConnState,
    s.commits.map Commit.seq = List.range' 1 s.commits.length →
    s.seq = s.commits.length →
    (runA tx s acts).commits.map Commit.seq =
      List.range' 1 (runA tx s acts).commits.length ∧
    (runA tx s acts).seq = (runA tx s acts).commits.length := by
  induction acts with
  | nil => exact fun s h1 h2 => ⟨h1, h2⟩
  | cons a rest ih =>
    intro s h1 h2
    have h := stepA_seq_inv tx a s h1 h2
    simpa only [runA, List.foldl_cons] using ih (stepA tx s a) h.1 h.2

theorem commit_now_timers_le (tx : String → Option String) (t : String) (s : ConnState)
    (h : s.timers.length ≤ 1) : (commit_now tx t s).1.timers.length ≤ 1 := by
  unfold commit_now
  repeat' split
  all_goals first
    | exact h
    | simp

theorem commit_now_commits_mono (tx : String → Option String) (t : String) (s : ConnState) :
    (commit_now tx t s).1.commits = s.commits ∨
    ∃ c, (commit_now tx t s).1.commits = s.commits ++ [c] := by
  unfold commit_now
  repeat' split
  all_goals simp

theorem stepA_timers_le (tx : String → Option String) (a : Act) (s : ConnState)
    (h : s.timers.length ≤ 1) : (stepA tx s a).timers.length ≤ 1 := by
  cases a with
  | result tr f sf =>
    simp only [stepA, processResult]
    repeat' split
    all_goals first
      | exact h
      | simpa using h
      | (apply commit_now_timers_le <;> simpa using h)
      | simp [arm_timer]
  | fire snap =>
    simp only [stepA, fire_timer]
    cases s.pending with
    | none => simp
    | some p =>
      simp only []
      repeat' split
      all_goals first
        | simp
        | (apply commit_now_timers_le; simp)
  | flush =>
    simp only [stepA, flush_commit]
    cases s.pending with
    | none => exact h
    | some p =>
      simp only []
      split
      · exact h
      · exact commit_now_timers_le tx p s h

theorem runA_timers_le (tx : String → Option String) (acts : List Act) : ∀ s : ConnState,
    s.timers.length ≤ 1 → (runA tx s acts).timers.length ≤ 1 := by
  induction acts with
  | nil => exact fun s h => h
  | cons a rest ih =>
    intro s h
    simpa only [runA, List.foldl_cons] using ih (stepA tx s a) (stepA_timers_le tx a s h)

theorem dropWhile_of_all_not (p : Char → Bool) (l : List Char)
    (h : ∀ c ∈ l, p c = false) : l.dropWhile p = l := by
  cases l with
  | nil => rfl
  | cons c rest => simp [List.dropWhile_cons, h c (List.mem_cons_self c rest)]

theorem pyStrip_of_no_ws (s : String) (h : ∀ c ∈ s.data, pyWsChar c = false) :
    pyStrip s = s := by
  unfold pyStrip pyStripL
  rw [dropWhile_of_all_not pyWsChar s.data h,
    dropWhile_of_all_not pyWsChar s.data.reverse (fun c hc => h c (List.mem_reverse.mp hc))]
  simp

theorem splitWsAux_no_ws (l : List Char) (h : ∀ c ∈ l, pyWsChar c = false) :
    ∀ cur : List Char, splitWsAux l cur =
      if (cur.reverse ++ l).isEmpty then [] else [cur.reverse ++ l] := by
  induction l with
  | nil => intro cur; simp [splitWsAux, List.isEmpty_iff]
  | cons c rest ih =>
    intro cur
    have hc : pyWsChar c = false := h c (List.mem_cons_self c rest)
    simp only [splitWsAux, hc, Bool.false_eq_true, if_false]
    rw [ih (fun d hd => h d (List.mem_cons_of_mem c hd)) (c :: cur)]
    simp

theorem norm_ws_of_no_ws (s : String) (h : ∀ c ∈ s.data, pyWsChar c = false) :
    norm_ws s = s := by
  unfold norm_ws normWsL splitWsL
  rw [splitWsAux_no_ws s.data h []]
  cases hd : s.data with
  | nil =>
    have hs : s = "" := by
      cases s with
      | mk d =>
        have hde : d = [] := hd
        rw [hde]
    simp [hs, List.intercalate]
  | cons c rest =>
    have hs : s = String.mk (c :: rest) := by
      cases s with
      | mk d =>
        have hde : d = c :: rest := hd
        rw [hde]
    simp [hs, List.intercalate]

theorem broadcastSent_eq_filter {L : Type} (active : List L) (fails : L → Bool) :
    broadcastSent active fails = active.filter (fun w => !fails w) := by
  suffices h : ∀ acc : List L,
      active.foldl (fun snt w => if fails w then snt else snt ++ [w]) acc
        = acc ++ active.filter (fun w => !fails w) by
    simpa [broadcastSent] using h []
  induction active with
  | nil => intro acc; simp
  | cons a rest ih =>
    intro acc
    by_cases hf : fails a = true
    · simp [List.foldl_cons, hf, ih, List.filter_cons]
    · simp only [Bool.not_eq_true] at hf
      simp [List.foldl_cons, hf, ih, List.filter_cons]

theorem broadcastDead_eq_filter {L : Type} (active : List L) (fails : L → Bool) :
    broadcastDead active fails = active.filter fails := by
  suffices h : ∀ acc : List L,
      active.foldl (fun d w => if fails w then d ++ [w] else d) acc
        = acc ++ active.filter fails by
    simpa [broadcastDead] using h []
  induction active with
  | nil => intro acc; simp
  | cons a rest ih =>
    intro acc
    by_cases hf : fails a = true
    · simp [List.foldl_cons, hf, ih, List.filter_cons]
    · simp only [Bool.not_eq_true] at hf
      simp [List.foldl_cons, hf, ih, List.filter_cons]

theorem mem_foldl_erase {L : Type} [DecidableEq L] :
    ∀ (ds act : List L), act.Nodup →
      ∀ w, (w ∈ ds.foldl List.erase act ↔ w ∈ act ∧ w ∉ ds) := by
  intro ds
  induction ds with
  | nil => intro act _ w; simp
  | cons d rest ih =>
    intro act hn w
    simp only [List.foldl_cons]
    rw [ih (act.erase d) (hn.erase d), hn.mem_erase_iff]
    constructor
    · rintro ⟨⟨hwd, hwa⟩, hwr⟩
      exact ⟨hwa, by simp [hwd, hwr]⟩
    · rintro ⟨hwa, hnd⟩
      simp only [List.mem_cons, not_or] at hnd
      exact ⟨⟨hnd.1, hwa⟩, hnd.2⟩

theorem processResult_accepts (tx : String → Option String) (s : ConnState) (raw : String)
    (hstr : pyStrip raw = raw) (hne : raw ≠ "")
    (hdiff : norm_ws raw ≠ norm_ws s.lastKr) :
    processResult tx raw true true s =
      ({ seq := s.seq + 1, lastKr := raw, pending := none, timers := [],
         commits := s.commits ++ [⟨s.seq + 1, raw, (tx raw).getD raw⟩] },
       [OutMsg.commitMsg ⟨s.seq + 1, raw, (tx raw).getD raw⟩]) := by
  unfold processResult
  rw [hstr]
  simp only [hne, truthy, commit_now, hstr, hdiff]
  simp [hne, hdiff, truthy, hstr]

theorem processResult_suppresses (tx : String → Option String) (s : ConnState) (raw : String)
    (hstr : pyStrip raw = raw) (hne : raw ≠ "")
    (hdup : norm_ws raw = norm_ws s.lastKr) :
    processResult tx raw true true s = ({ s with pending := some raw }, []) := by
  unfold processResult
  rw [hstr]
  simp [hne, truthy, commit_now, hstr, hdup]

/-- C3: Submitting an identical final transcript twice in direct
succession yields exactly one commit: the first accepted event appends
one commit, the second, normalized-equal candidate is suppressed and
consumes no sequence number — both in the live pipeline (`commit_now`'s
de-dup against `_last_kr`) and in `Committer.maybe_commit` (its `_last`
check). -/
theorem C3_idempotent_duplicate (tx : String → Option String) (s : ConnState) (raw : String)
    (hstr : pyStrip raw = raw) (hne : raw ≠ "")
    (hdiff : norm_ws raw ≠ norm_ws s.lastKr) :
    ((processResult tx raw true true s).1.commits).length = s.commits.length + 1 ∧
    (processResult tx raw true true ((processResult tx raw true true s).1)).1.commits =
      (processResult tx raw true true s).1.commits ∧
    (processResult tx raw true true ((processResult tx raw true true s).1)).1.seq =
      (processResult tx raw true true s).1.seq ∧
    (∀ (cm : Committer) (txt : String) (sf : Bool), pyStrip txt ≠ "" →
      (maybe_commit (maybe_commit cm txt true sf).1 txt true sf).2 = none) := by
  have h1 := processResult_accepts tx s raw hstr hne hdiff
  have h2 := processResult_suppresses tx
    ({ seq := s.seq + 1, lastKr := raw, pending := none, timers := [],
       commits := s.commits ++ [⟨s.seq + 1, raw, (tx raw).getD raw⟩] }) raw hstr hne rfl
  refine ⟨?_, ?_, ?_, ?_⟩
  · rw [h1]; simp
  · rw [h1]; dsimp only; rw [h2]
  · rw [h1]; dsimp only; rw [h2]
  · intro cm txt sf ht
    unfold maybe_commit
    by_cases heq : pyStrip txt = cm.lastC
    · simp [ht, heq]
    · simp [ht, heq]

/-- C3 witness at a concrete input. -/
theorem C3_idempotent_duplicate_witness :
    ((processResult (fun t => some t) ("감사합니다") true true initState).1.commits).length = 1 ∧
    (maybe_commit (maybe_commit ⟨0, ""⟩ ("감사합니다") true true).1 ("감사합니다") true true).2
      = none := by
  have h := C3_idempotent_duplicate (fun t => some t) initState ("감사합니다")
    (by decide) (by decide) (by decide)
  exact ⟨by simpa [initState] using h.1, h.2.2.2 ⟨0, ""⟩ ("감사합니다") true (by decide)⟩

/-- C4: On every connection, sequence numbers of accepted commits are
exactly 1, 2, …, n (hence strictly increasing, starting at 1, each
strictly greater than the previous), the next sequence counter equals the
number of accepted commits, a suppressed candidate leaves the whole state
(in particular the sequence counter) unchanged, and an accepted commit
consumes exactly the next sequence number. -/
theorem C4_sequence_invariant (tx : String → Option String) (acts : List Act) :
    (runA tx initState acts).commits.map Commit.seq =
      List.range' 1 (runA tx initState acts).commits.length ∧
    ((runA tx initState acts).commits.map Commit.seq).Pairwise (· < ·) ∧
    (runA tx initState acts).seq = (runA tx initState acts).commits.length ∧
    (∀ (s : ConnState) (t : String), (commit_now tx t s).2 = none →
      (commit_now tx t s).1 = s) ∧
    (∀ (s : ConnState) (t : String) (c : Commit), (commit_now tx t s).2 = some c →
      c.seq = s.seq + 1 ∧ (commit_now tx t s).1.seq = s.seq + 1) := by
  have h := runA_seq_inv tx acts initState rfl rfl
  refine ⟨h.1, ?_, h.2, ?_, ?_⟩
  · rw [h.1]; exact List.pairwise_lt_range' 1 _
  · intro s t hnone
    by_cases h1 : pyStrip t = ""
    · simp [commit_now, h1]
    by_cases h2 : norm_ws t = norm_ws s.lastKr
    · simp [commit_now, h1, h2]
    · exfalso; simp [commit_now, h1, h2] at hnone
  · intro s t c hsome
    by_cases h1 : pyStrip t = ""
    · exfalso; simp [commit_now, h1] at hsome
    by_cases h2 : norm_ws t = norm_ws s.lastKr
    · exfalso; simp [commit_now, h1, h2] at hsome
    · simp only [commit_now, h1, h2, if_false] at hsome ⊢
      simp at hsome
      constructor
      · rw [← hsome]
      · simp [h1, h2]

/-- C4 witness at a concrete input. -/
theorem C4_sequence_invariant_witness :
    ((runA (fun t => some t) initState [Act.result ("아멘") true true]).commits.map Commit.seq =
      List.range' 1
        (runA (fun t => some t) initState [Act.result ("아멘") true true]).commits.length) ∧
    (commit_now (fun t => some t) "" initState).1 = initState ∧
    (⟨1, ("아멘"), ("아멘")⟩ : Commit).seq = initState.seq + 1 := by
  refine ⟨(C4_sequence_invariant (fun t => some t) [Act.result ("아멘") true true]).1, ?_, ?_⟩
  · exact (C4_sequence_invariant (fun t => some t) []).2.2.2.1 initState ("") (by decide)
  · exact ((C4_sequence_invariant (fun t => some t) []).2.2.2.2 initState ("아멘")
      ⟨1, ("아멘"), ("아멘")⟩ (by decide)).1

/-- C5: A non-final transcript event (is_final false, speech_final false)
with text changes no commit-relevant state: the connection state —
including the pending buffer `pending_kr` consulted by commit decisions —
is the same before and after, and the only effect is the `stt.partial`
live-preview message.  (The live pipeline is `from_deepgram_to_server`;
the `SentenceAggregator` class is referenced only by commented-out
code and is never instantiated by the running app.) -/
theorem C5_nonfinal_preview_only (tx : String → Option String) (s : ConnState)
    (raw : String) (h : pyStrip raw ≠ "") :
    processResult tx raw false false s = (s, [OutMsg.previewMsg (pyStrip raw)]) := by
  unfold processResult
  simp [h]

/-- C5 witness at a concrete input. -/
theorem C5_nonfinal_preview_only_witness :
    processResult (fun t => some t) ("안녕") false false initState =
      (initState, [OutMsg.previewMsg (pyStrip ("안녕"))]) :=
  C5_nonfinal_preview_only (fun t => some t) initState ("안녕") (by decide)

/-- C6: When a debounce timer fires, a commit can be produced only if the
buffered pending text normalizes equal to the snapshot taken at arm time;
if it differs, the fire is a no-op: no commit, and the commit-relevant
state (commits, sequence, pending buffer, last committed text) is
unchanged. -/
theorem C6_fire_snapshot (tx : String → Option String) (snap : String) (s : ConnState) :
    (∀ c : Commit, (fire_timer tx snap s).2 = some c →
      norm_ws (s.pending.getD ("")) = norm_ws snap) ∧
    (norm_ws (s.pending.getD ("")) ≠ norm_ws snap →
      (fire_timer tx snap s).2 = none ∧
      (fire_timer tx snap s).1.commits = s.commits ∧
      (fire_timer tx snap s).1.seq = s.seq ∧
      (fire_timer tx snap s).1.pending = s.pending ∧
      (fire_timer tx snap s).1.lastKr = s.lastKr) := by
  cases hp : s.pending with
  | none => simp [fire_timer, hp]
  | some p =>
    constructor
    · intro c hc
      by_cases h0 : p = ""
      · simp [fire_timer, hp, h0] at hc
      by_cases h1 : norm_ws p = norm_ws snap
      · simpa [hp] using h1
      · simp [fire_timer, hp, h0, h1] at hc
    · intro hne
      have h1 : ¬ norm_ws p = norm_ws snap := by simpa [hp] using hne
      by_cases h0 : p = ""
      · simp [fire_timer, hp, h0]
      · simp [fire_timer, hp, h0, h1]

/-- C6 witness at concrete inputs: a stale snapshot fires as a no-op, and
a fire that does commit had a normalized-equal snapshot. -/
theorem C6_fire_snapshot_witness :
    (fire_timer (fun t => some t) ("하나")
        { seq := 0, lastKr := "", pending := some ("둘"), timers := [("하나")],
          commits := [] }).2 = none ∧
    (fire_timer (fun t => some t) ("하나")
        { seq := 0, lastKr := "", pending := some ("둘"), timers := [("하나")],
          commits := [] }).1.commits = [] ∧
    norm_ws ((some ("같이") : Option String).getD ("")) = norm_ws ("같이") := by
  have h := (C6_fire_snapshot (fun t => some t) ("하나")
    { seq := 0, lastKr := "", pending := some ("둘"), timers := [("하나")],
      commits := [] }).2 (by decide)
  have h2 := (C6_fire_snapshot (fun t => some t) ("같이")
    { seq := 0, lastKr := "", pending := some ("같이"), timers := [("같이")],
      commits := [] }).1 ⟨1, ("같이"), ("같이")⟩ (by decide)
  exact ⟨h.1, h.2.1, h2⟩

/-- C7: At any instant a connection has at most one outstanding debounce
timer: every reachable state of the event loop carries at most one timer,
arming replaces whatever was there by exactly the one new snapshot task
(cancel-then-schedule), and an accepted commit cancels any outstanding
timer. -/
theorem C7_single_timer (tx : String → Option String) (acts : List Act) :
    (runA tx initState acts).timers.length ≤ 1 ∧
    (∀ s : ConnState, (arm_timer s).timers = [s.pending.getD ("")]) ∧
    (∀ (s : ConnState) (t : String) (c : Commit), (commit_now tx t s).2 = some c →
      (commit_now tx t s).1.timers = []) := by
  refine ⟨runA_timers_le tx acts initState (by simp [initState]), fun s => rfl, ?_⟩
  intro s t c hsome
  by_cases h1 : pyStrip t = ""
  · exfalso; simp [commit_now, h1] at hsome
  by_cases h2 : norm_ws t = norm_ws s.lastKr
  · exfalso; simp [commit_now, h1, h2] at hsome
  · simp [commit_now, h1, h2]

/-- C7 witness at a concrete input. -/
theorem C7_single_timer_witness :
    (runA (fun t => some t) initState
      [Act.result ("하나") true false, Act.result ("둘") true false]).timers.length ≤ 1 ∧
    (commit_now (fun t => some t) ("가")
      { seq := 0, lastKr := "", pending := some ("가"), timers := [("가")],
        commits := [] }).1.timers = [] := by
  refine ⟨(C7_single_timer (fun t => some t)
    [Act.result ("하나") true false, Act.result ("둘") true false]).1, ?_⟩
  exact (C7_single_timer (fun t => some t) []).2.2
    { seq := 0, lastKr := "", pending := some ("가"), timers := [("가")], commits := [] }
    ("가") ⟨1, ("가"), ("가")⟩ (by decide)

/-- C9: When a committed message is broadcast to the listeners, a
delivery failure to one listener does not abort delivery to the others:
the send is attempted for every listener in the snapshot of the active
set, every non-failing listener receives the message, every failing
listener is removed from the active set afterwards, and every non-failing
listener stays.  (The producer connection is not part of the manager's
state, and the pipeline's broadcast call sites catch and only log
exceptions.) -/
theorem C9_broadcast_isolation {L : Type} [DecidableEq L] (active : List L)
    (fails : L → Bool) (hn : active.Nodup) :
    broadcastSent active fails = active.filter (fun w => !fails w) ∧
    (∀ w ∈ active, fails w = false → w ∈ broadcastSent active fails) ∧
    (∀ w ∈ active, fails w = false → w ∈ broadcastAfter active fails) ∧
    (∀ w ∈ active, fails w = true → w ∉ broadcastAfter active fails) := by
  have hs := broadcastSent_eq_filter active fails
  have hafter : ∀ w, w ∈ broadcastAfter active fails ↔
      w ∈ active ∧ w ∉ broadcastDead active fails := by
    intro w
    unfold broadcastAfter
    exact mem_foldl_erase (broadcastDead active fails) active hn w
  refine ⟨hs, ?_, ?_, ?_⟩
  · intro w hw hf
    rw [hs]
    exact List.mem_filter.mpr ⟨hw, by simp [hf]⟩
  · intro w hw hf
    rw [hafter w]
    refine ⟨hw, ?_⟩
    rw [broadcastDead_eq_filter]
    intro hmem
    have := (List.mem_filter.mp hmem).2
    simp [hf] at this
  · intro w hw hf hmem
    have h2 := ((hafter w).mp hmem).2
    rw [broadcastDead_eq_filter] at h2
    exact h2 (List.mem_filter.mpr ⟨hw, by simp [hf]⟩)

/-- C9 witness at a concrete input. -/
theorem C9_broadcast_isolation_witness :
    (1 : Nat) ∈ broadcastSent [1, 2, 3] (fun w => w == 2) ∧
    (3 : Nat) ∈ broadcastAfter [1, 2, 3] (fun w => w == 2) ∧
    (2 : Nat) ∉ broadcastAfter [1, 2, 3] (fun w => w == 2) := by
  have h := C9_broadcast_isolation [1, 2, 3] (fun w => w == 2) (by decide)
  exact ⟨h.2.1 1 (by decide) (by decide), h.2.2.1 3 (by decide) (by decide),
    h.2.2.2 2 (by decide) (by decide)⟩

/-- C10: `apply_ko_spacing` returns its input unchanged whenever the
input is empty, already contains a space character, or is not mostly
Hangul (fewer than 60 percent Hangul characters); conversely, whenever
the output differs from the input, the input was non-empty, space-free
and mostly Hangul — only such text is ever re-segmented before being
handed to the translator. -/
theorem C10_spacing_guard (text : String) :
    ((text = "" ∨ text.data.contains ' ' = true ∨ is_mostly_hangul text = false) →
      apply_ko_spacing text = text) ∧
    (apply_ko_spacing text ≠ text →
      text ≠ "" ∧ text.data.contains ' ' = false ∧ is_mostly_hangul text = true) := by
  have hguard : (text = "" ∨ text.data.contains ' ' = true ∨ is_mostly_hangul text = false) →
      apply_ko_spacing text = text := by
    intro h
    unfold apply_ko_spacing
    split
    · rfl
    split
    · rfl
    split
    · rfl
    · rename_i h1 h2 h3
      exfalso
      rcases h with h | h | h
      · exact h1 h
      · exact h2 h
      · exact h3 h
  refine ⟨hguard, ?_⟩
  intro hne
  by_cases h0 : text = ""
  · exact absurd (hguard (Or.inl h0)) hne
  by_cases h1 : text.data.contains ' ' = true
  · exact absurd (hguard (Or.inr (Or.inl h1))) hne
  by_cases h2 : is_mostly_hangul text = false
  · exact absurd (hguard (Or.inr (Or.inr h2))) hne
  exact ⟨h0, by simpa using h1, by simpa using h2⟩

/-- C10 witness at concrete inputs: non-Hangul and already-spaced text is
returned unchanged, and a re-segmented input is certified space-free and
mostly Hangul. -/
theorem C10_spacing_guard_witness :
    apply_ko_spacing ("hello") = ("hello") ∧
    apply_ko_spacing ("찬양 하세요") = ("찬양 하세요") ∧
    (("안녕하세요" : String) ≠ "" ∧ ("안녕하세요" : String).data.contains ' ' = false ∧
      is_mostly_hangul ("안녕하세요") = true) := by
  exact ⟨(C10_spacing_guard ("hello")).1 (Or.inr (Or.inr (by decide))),
    (C10_spacing_guard ("찬양 하세요")).1 (Or.inr (Or.inl (by decide))),
    (C10_spacing_guard ("안녕하세요")).2 (by decide)⟩

/-- C1 counterexample: with last committed text "나는오늘교회에갑니다", the
stray shorter final "갑니다" satisfies every guard of the claimed subset
suppressor — strictly shorter, both strings space-free, length delta at
least 6, a suffix of the last committed text, and arriving as the very
next event (inside any 4 s window; the code consults no clock at all) —
yet it is not suppressed: a second commit is produced and the sequence
advances to 2. -/
theorem C1_subset_suppression_counterexample :
    (runA (fun t => some t) initState
      [Act.result ("나는오늘교회에갑니다") true true,
       Act.result ("갑니다") true true]).commits.map Commit.seq = [1, 2] ∧
    (runA (fun t => some t) initState
      [Act.result ("나는오늘교회에갑니다") true true,
       Act.result ("갑니다") true true]).seq = 2 ∧
    (runA (fun t => some t) initState
      [Act.result ("나는오늘교회에갑니다") true true,
       Act.result ("갑니다") true true]).commits.map Commit.srcText =
      [("나는오늘교회에갑니다"), ("갑니다")] ∧
    ("갑니다").data.length < ("나는오늘교회에갑니다").data.length ∧
    ("갑니다").data.all (fun c => !pyWsChar c) = true ∧
    ("나는오늘교회에갑니다").data.all (fun c => !pyWsChar c) = true ∧
    6 ≤ ("나는오늘교회에갑니다").data.length - ("갑니다").data.length ∧
    isSufOf ("갑니다").data ("나는오늘교회에갑니다").data = true := by decide

/-- C1 amended: the code suppresses a commit candidate only when it is
normalized-equal to the connection's last committed text.  A candidate
meeting all the claimed subset conditions (strictly shorter than the last
commit, both space-free, delta at least 6, a prefix or suffix of the last
commit) is never subset-suppressed — the code has no suppression window —
and is instead accepted at once as a new commit with the next sequence
number. -/
theorem C1_shorter_subset_accepted (tx : String → Option String) (s : ConnState)
    (cand : String)
    (hns1 : ∀ c ∈ cand.data, pyWsChar c = false)
    (hns2 : ∀ c ∈ s.lastKr.data, pyWsChar c = false)
    (hne : cand ≠ "")
    (hlen : cand.data.length < s.lastKr.data.length)
    (_hdelta : 6 ≤ s.lastKr.data.length - cand.data.length)
    (_hps : isPrefOf cand.data s.lastKr.data = true ∨ isSufOf cand.data s.lastKr.data = true) :
    (processResult tx cand true true s).1.seq = s.seq + 1 ∧
    (processResult tx cand true true s).1.commits =
      s.commits ++ [⟨s.seq + 1, cand, (tx cand).getD cand⟩] := by
  have hstr : pyStrip cand = cand := pyStrip_of_no_ws cand hns1
  have hdiff : norm_ws cand ≠ norm_ws s.lastKr := by
    rw [norm_ws_of_no_ws cand hns1, norm_ws_of_no_ws s.lastKr hns2]
    intro he
    rw [he] at hlen
    exact Nat.lt_irrefl _ hlen
  rw [processResult_accepts tx s cand hstr hne hdiff]
  exact ⟨rfl, rfl⟩

/-- C1 amended-claim witness at a concrete input. -/
theorem C1_shorter_subset_accepted_witness :
    (processResult (fun t => some t) ("갑니다") true true
      { seq := 1, lastKr := ("나는오늘교회에갑니다"), pending := none, timers := [],
        commits := [⟨1, ("나는오늘교회에갑니다"), ("나는오늘교회에갑니다")⟩] }).1.seq = 2 := by
  have h := C1_shorter_subset_accepted (fun t => some t)
    { seq := 1, lastKr := ("나는오늘교회에갑니다"), pending := none, timers := [],
      commits := [⟨1, ("나는오늘교회에갑니다"), ("나는오늘교회에갑니다")⟩] }
    ("갑니다") (by decide) (by decide) (by decide) (by decide) (by decide)
    (Or.inr (by decide))
  exact h.1

/-- C2 counterexample: the classifier `ends_like_sentence` checks only
terminal punctuation; the final transcript "오늘 은혜를 받았습니다" (no
punctuation, recognized Korean declarative suffix) is classified
incomplete, and the pipeline does not commit it immediately — it arms the
debounce timer instead.  A punctuated sentence, by contrast, is
classified complete. -/
theorem C2_korean_ending_counterexample :
    ends_like_sentence ("오늘 은혜를 받았습니다") = false ∧
    (processResult (fun t => some t) ("오늘 은혜를 받았습니다") true false initState).1.commits
      = [] ∧
    (processResult (fun t => some t) ("오늘 은혜를 받았습니다") true false initState).1.seq
      = 0 ∧
    (processResult (fun t => some t) ("오늘 은혜를 받았습니다") true false initState).1.timers
      = [("오늘 은혜를 받았습니다")] ∧
    ends_like_sentence ("오늘 말씀을 전합니다.") = true := by decide

/-- C2 amended: the completeness classifier applies the same rule to all
input — complete exactly when the right-stripped text ends in a
sentence-terminal punctuation mark; there is no CJK branch and no Korean
sentence-ending alternation.  A final (non-speech-final) event whose text
lacks terminal punctuation is therefore never committed immediately: the
state keeps its commits and sequence and the debounce timer is armed with
the new pending text. -/
theorem C2_punct_only_classifier (tx : String → Option String) (s : ConnState) (raw : String)
    (hne : pyStrip raw ≠ "")
    (hcls : ends_like_sentence (pyStrip raw) = false) :
    (processResult tx raw true false s).1.commits = s.commits ∧
    (processResult tx raw true false s).1.seq = s.seq ∧
    (processResult tx raw true false s).1.timers = [pyStrip raw] ∧
    (processResult tx raw true false s).2 = [] := by
  unfold processResult
  simp [hne, truthy, hcls, arm_timer]

/-- C2 amended-claim witness at a concrete input. -/
theorem C2_punct_only_classifier_witness :
    (processResult (fun t => some t) ("오늘 은혜를 받았습니다") true false initState).1.timers
      = [pyStrip ("오늘 은혜를 받았습니다")] ∧
    (processResult (fun t => some t) ("오늘 은혜를 받았습니다") true false initState).1.commits
      = initState.commits := by
  have h := C2_punct_only_classifier (fun t => some t) initState ("오늘 은혜를 받았습니다")
    (by decide) (by decide)
  exact ⟨h.2.2.1, h.1⟩

theorem unmask_nil (mapping : List (String × String)) :
    unmask_hard_glossary ("") mapping = "" := by
  unfold unmask_hard_glossary
  suffices h : ∀ m : List (String × String),
      m.foldl (fun out tr => replaceAllL out tr.1.data tr.2.data) ([] : List Char) = [] by
    exact congrArg String.mk (h mapping)
  intro m
  induction m with
  | nil => rfl
  | cons hd tl ih => exact ih

theorem weGuard_empty_en (src : String) : enforce_we_guardrails ("") src = "" := by
  unfold enforce_we_guardrails
  split
  · rfl
  split
  · rfl
  · suffices h : ∀ ps : List RPat, ps.foldl (fun s p => subRPat p s) ([] : List Char) = [] by
      exact congrArg String.mk (h weGuardPats)
    intro ps
    induction ps with
    | nil => rfl
    | cons hd tl ih => exact ih

theorem translate_empty_content (text : String) (content : Option String)
    (hc : content = none ∨ content = some ("")) :
    translate_text text (ApiOutcome.returned content) = "" := by
  have hstrip : stripQuotes (pyStrip (content.getD (""))) = "" := by
    rcases hc with h | h <;> rw [h] <;> rfl
  unfold translate_text
  split
  · rfl
  · dsimp only
    rw [hstrip, unmask_nil, weGuard_empty_en]

/-- C8 counterexample: a successful translation response with empty or
missing `message.content` is not substituted by the source text: for a
committed source "안녕하세요" the pipeline forwards the empty string as
the translation (the accepted commit carries `en = ""`), contradicting
the claim's "empty/non-text result → original source text forwarded". -/
theorem C8_empty_result_counterexample :
    translate_text ("안녕하세요") (ApiOutcome.returned none) = "" ∧
    translate_text ("안녕하세요") (ApiOutcome.returned (some (""))) = "" ∧
    ("" : String) ≠ ("안녕하세요") ∧
    (commit_now (fun t => some (translate_text t (ApiOutcome.returned none))) ("안녕하세요")
      initState).2 = some ⟨1, ("안녕하세요"), ""⟩ := by decide

/-- C8 amended: translation failure fails open only for raised errors
(timeout, API error, exception): in that case `translate_text` returns
the lightly preprocessed source text, and an exception escaping the
translation call is replaced by the raw source text in `commit_now`, so
the commit always proceeds and no failure propagates.  An empty or
non-text API result, however, is forwarded as an empty translation
string, not as the source text. -/
theorem C8_fail_open_amended (text : String) (tx : String → Option String)
    (s : ConnState) (t : String) :
    (tx_masked_spaced text ≠ "" →
      translate_text text ApiOutcome.raised = tx_preprocessed text) ∧
    translate_text text (ApiOutcome.returned none) = "" ∧
    translate_text text (ApiOutcome.returned (some (""))) = "" ∧
    (∀ c : Commit, tx t = none → (commit_now tx t s).2 = some c → c.en = t) := by
  refine ⟨?_, translate_empty_content text none (Or.inl rfl),
    translate_empty_content text (some ("")) (Or.inr rfl), ?_⟩
  · intro h
    unfold translate_text
    simp [h]
  · intro c htx hsome
    by_cases h1 : pyStrip t = ""
    · exfalso; simp [commit_now, h1] at hsome
    by_cases h2 : norm_ws t = norm_ws s.lastKr
    · exfalso; simp [commit_now, h1, h2] at hsome
    · simp only [commit_now, h1, h2, if_false] at hsome
      simp at hsome
      rw [← hsome]
      simp [htx]

/-- C8 amended-claim witness at a concrete input. -/
theorem C8_fail_open_amended_witness :
    translate_text ("기도합니다") ApiOutcome.raised = tx_preprocessed ("기도합니다") ∧
    (⟨1, ("기도"), ("기도")⟩ : Commit).en = ("기도") := by
  have h := C8_fail_open_amended ("기도합니다") (fun _ => none) initState ("기도")
  exact ⟨h.1 (by decide), h.2.2.2 ⟨1, ("기도"), ("기도")⟩ rfl (by decide)⟩
